import Mathlib

/-!
Verification of the temporal fusion and decision engine of the engine-knock
detection sketch (`nano_ble33_sense_microphone_new_works.ino`).

The embedded state consists of the three globals of the sketch:
`classification_buffer` (a `FUSION_WINDOW × EI_CLASSIFIER_LABEL_COUNT` float
array), `fusion_index` (the ring cursor) and `fusion_buffer_full` (the
warm-up flag).  Floating-point scores are modelled as rationals.  The push
step, the weighted-and-boosted fusion and the threshold decision are
translated directly from the `loop()` body (lines 164-205 of the sketch).
-/

namespace KnockFusion

/-- `#define FUSION_WINDOW 5` (line 18). -/
abbrev FUSION_WINDOW : ℕ := 5

/-- `EI_CLASSIFIER_LABEL_COUNT`: three classes, [Engine, Knock, Neither]
(comment at line 27). -/
abbrev LABEL_COUNT : ℕ := 3

/-- One classification vector: one score per class. -/
abbrev ClassVec := Fin LABEL_COUNT → ℚ

/-- The fusion-relevant global state of the sketch (lines 21-23):
the ring storage, the write cursor, and the full flag. -/
structure FusionState where
  classification_buffer : Fin FUSION_WINDOW → ClassVec
  fusion_index : ℕ
  fusion_buffer_full : Bool
  deriving DecidableEq

/-- Initial values of the globals: zeroed buffer, cursor 0, flag false
(lines 21-23). -/
def initState : FusionState where
  classification_buffer := fun _ _ => 0
  fusion_index := 0
  fusion_buffer_full := false

/-- `fusion_weights` (line 26): recency weights 0.05, 0.10, 0.20, 0.30, 0.35. -/
def fusion_weights : Fin FUSION_WINDOW → ℚ :=
  ![5/100, 10/100, 20/100, 30/100, 35/100]

/-- `class_boost` (line 28): boost factors 1.0, 2.0, 1.0 for
[Engine, Knock, Neither]. -/
def class_boost : Fin LABEL_COUNT → ℚ := ![1, 2, 1]

/-- `KNOCK_THRESHOLD` (line 30): 0.25. -/
def KNOCK_THRESHOLD : ℚ := 25/100

/-- One push of a classification vector into the ring (lines 164-172):
write the vector at slot `fusion_index`, increment the cursor, and on
reaching `FUSION_WINDOW` reset it to 0 and latch the full flag. -/
def push (s : FusionState) (v : ClassVec) : FusionState :=
  let buf : Fin FUSION_WINDOW → ClassVec :=
    fun i => if (i : ℕ) = s.fusion_index then v else s.classification_buffer i
  if s.fusion_index + 1 ≥ FUSION_WINDOW then
    { classification_buffer := buf, fusion_index := 0, fusion_buffer_full := true }
  else
    { classification_buffer := buf, fusion_index := s.fusion_index + 1,
      fusion_buffer_full := s.fusion_buffer_full }

/-- Push a whole sequence of vectors, one inference cycle after another. -/
def pushAll (s : FusionState) (vs : List ClassVec) : FusionState :=
  vs.foldl push s

/-- The fusion arithmetic of lines 176-187 with the weights and boosts as
explicit parameters: `S[c] = boosts[c] * Σ_i weights[i] * history[i][c]`. -/
def fuseWith (history : Fin FUSION_WINDOW → ClassVec)
    (weights : Fin FUSION_WINDOW → ℚ) (boosts : Fin LABEL_COUNT → ℚ) : ClassVec :=
  fun c => boosts c * ∑ i : Fin FUSION_WINDOW, weights i * history i c

/-- The fusion exactly as the sketch computes it (lines 176-187): the
weighted sum runs over the buffer in raw storage order `i = 0..4`, then the
class boost is applied. -/
def fuse (buf : Fin FUSION_WINDOW → ClassVec) : ClassVec :=
  fuseWith buf fusion_weights class_boost

/-- The threshold decision of line 191 with the target class and threshold
as explicit parameters: true iff the fused score of the target class is
strictly greater than the threshold. -/
def decideFused (fused : ClassVec) (target : Fin LABEL_COUNT) (threshold : ℚ) : Bool :=
  decide (fused target > threshold)

/-- The concrete decision of the sketch: `S[1] > KNOCK_THRESHOLD` (line 191). -/
def knock_detected (S : ClassVec) : Bool :=
  decideFused S 1 KNOCK_THRESHOLD

/-- What one cycle reports after the push (lines 175-205): once the buffer
is full, the fused vector and the knock decision; during warm-up, nothing. -/
def loopOutput (s : FusionState) : Option (ClassVec × Bool) :=
  if s.fusion_buffer_full then
    some (fuse s.classification_buffer, knock_detected (fuse s.classification_buffer))
  else none

/-- One full `loop()` cycle as it affects the fusion state (lines 141-172):
if the recording step fails (timeout, line 146) or the classifier fails
(line 158), the cycle returns early and no push happens; otherwise the
resulting classification vector is pushed. -/
def cycle (recordOk : Bool) (classification : Option ClassVec)
    (s : FusionState) : FusionState :=
  if recordOk then
    match classification with
    | some v => push s v
    | none => s
  else s

/-- Value of the `Fin` literal 3 viewed in ℕ, for evaluating ring indices. -/
lemma fin5_val_three : ((3 : Fin FUSION_WINDOW) : ℕ) = 3 := rfl

/-- Value of the `Fin` literal 4 viewed in ℕ, for evaluating ring indices. -/
lemma fin5_val_four : ((4 : Fin FUSION_WINDOW) : ℕ) = 4 := rfl

/-- Scenario A vectors: class-1 score 0 in the first four pushes. -/
def zeroVec : ClassVec := fun _ => 0

/-- Scenario A fifth vector: class-1 score 0.30, other classes 0. -/
def vFifth : ClassVec := ![0, 30/100, 0]

/-- C4: With the configured weights, boosts and threshold, pushing four zero
vectors and then a vector whose knock score is 0.30 fills the buffer, yields
fused knock score `0.35 * 0.30 * 2.0 = 0.21`, and the decision is false. -/
theorem scenarioA_fused_and_decision :
    (pushAll initState [zeroVec, zeroVec, zeroVec, zeroVec, vFifth]).fusion_buffer_full = true ∧
    fuse (pushAll initState [zeroVec, zeroVec, zeroVec, zeroVec, vFifth]).classification_buffer 1
      = 21/100 ∧
    knock_detected
      (fuse (pushAll initState [zeroVec, zeroVec, zeroVec, zeroVec, vFifth]).classification_buffer)
      = false := by
  refine ⟨rfl, ?_, ?_⟩ <;>
    norm_num [pushAll, push, initState, fuse, fuseWith, fusion_weights, class_boost,
      knock_detected, decideFused, KNOCK_THRESHOLD, zeroVec, vFifth, Fin.sum_univ_five,
      fin5_val_three, fin5_val_four]

/-- Constant test vectors: every class score of `uVec k` is `k/10`. -/
def uVec (k : ℕ) : ClassVec := fun _ => (k : ℚ) / 10

/-- Distinct indices give distinct test vectors. -/
lemma uVec_ne (j k : ℕ) (h : j ≠ k) : uVec j ≠ uVec k := by
  intro he
  apply h
  have h0 := congrFun he 0
  simp only [uVec] at h0
  field_simp at h0
  exact_mod_cast h0

/-- The window the specification describes: entry `i` is the vector that is
`(W-1-i)` pushes older than the most recent one, i.e. the last `W` pushed
vectors in chronological order, oldest first.  Stated for comparison with
the raw buffer the sketch actually feeds to its weighted sum. -/
def chronologicalWindow (vs : List ClassVec) : Fin FUSION_WINDOW → ClassVec :=
  fun i => (vs.drop (vs.length - FUSION_WINDOW)).getD i zeroVec

/-- C1: the claim fails on the code.  After six pushes (of vectors whose
scores are 0.1, 0.2, ..., 0.6) the sketch's weighted sum reads the buffer in
raw storage order, so weight 0.05 lands on the most recent vector and the
fused knock score is 0.81, while the claimed chronological alignment of
`weights[i]` with the vector `(W-1-i)` pushes older than the most recent
yields 0.96. -/
theorem fusion_misaligned_after_six_pushes :
    fuse (pushAll initState
        [uVec 1, uVec 2, uVec 3, uVec 4, uVec 5, uVec 6]).classification_buffer 1
      = 81/100 ∧
    fuseWith (chronologicalWindow [uVec 1, uVec 2, uVec 3, uVec 4, uVec 5, uVec 6])
        fusion_weights class_boost 1
      = 96/100 ∧
    (81/100 : ℚ) ≠ 96/100 := by
  refine ⟨?_, ?_, by norm_num⟩
  · norm_num [pushAll, push, initState, fuse, fuseWith, fusion_weights, class_boost,
      uVec, Fin.sum_univ_five, fin5_val_three, fin5_val_four]
  · have h0 : chronologicalWindow [uVec 1, uVec 2, uVec 3, uVec 4, uVec 5, uVec 6] 0
        = uVec 2 := rfl
    have h1 : chronologicalWindow [uVec 1, uVec 2, uVec 3, uVec 4, uVec 5, uVec 6] 1
        = uVec 3 := rfl
    have h2 : chronologicalWindow [uVec 1, uVec 2, uVec 3, uVec 4, uVec 5, uVec 6] 2
        = uVec 4 := rfl
    have h3 : chronologicalWindow [uVec 1, uVec 2, uVec 3, uVec 4, uVec 5, uVec 6] 3
        = uVec 5 := rfl
    have h4 : chronologicalWindow [uVec 1, uVec 2, uVec 3, uVec 4, uVec 5, uVec 6] 4
        = uVec 6 := rfl
    norm_num [fuseWith, fusion_weights, class_boost, uVec, Fin.sum_univ_five,
      h0, h1, h2, h3, h4]

/-- C5: after `W + 1 = 6` pushes, slot 0 has been overwritten by the sixth
vector and slots 1-4 hold the second to fifth vectors, so when the first
vector differs from all five later ones it appears in no buffer slot. -/
theorem first_push_overwritten (v1 v2 v3 v4 v5 v6 : ClassVec) :
    ((pushAll initState [v1, v2, v3, v4, v5, v6]).classification_buffer 0 = v6 ∧
     (pushAll initState [v1, v2, v3, v4, v5, v6]).classification_buffer 1 = v2 ∧
     (pushAll initState [v1, v2, v3, v4, v5, v6]).classification_buffer 2 = v3 ∧
     (pushAll initState [v1, v2, v3, v4, v5, v6]).classification_buffer 3 = v4 ∧
     (pushAll initState [v1, v2, v3, v4, v5, v6]).classification_buffer 4 = v5) ∧
    ((v1 ≠ v2 ∧ v1 ≠ v3 ∧ v1 ≠ v4 ∧ v1 ≠ v5 ∧ v1 ≠ v6) →
      ∀ i : Fin FUSION_WINDOW,
        (pushAll initState [v1, v2, v3, v4, v5, v6]).classification_buffer i ≠ v1) := by
  refine ⟨⟨rfl, rfl, rfl, rfl, rfl⟩, ?_⟩
  rintro ⟨h2, h3, h4, h5, h6⟩ i
  fin_cases i
  · exact Ne.symm h6
  · exact Ne.symm h2
  · exact Ne.symm h3
  · exact Ne.symm h4
  · exact Ne.symm h5

/-- Witness for C5 at the concrete distinct vectors `uVec 1 .. uVec 6`:
slot 0 no longer holds the first pushed vector. -/
theorem first_push_overwritten_witness :
    (pushAll initState
        [uVec 1, uVec 2, uVec 3, uVec 4, uVec 5, uVec 6]).classification_buffer 0
      ≠ uVec 1 :=
  (first_push_overwritten (uVec 1) (uVec 2) (uVec 3) (uVec 4) (uVec 5) (uVec 6)).2
    ⟨uVec_ne 1 2 (by norm_num), uVec_ne 1 3 (by norm_num), uVec_ne 1 4 (by norm_num),
     uVec_ne 1 5 (by norm_num), uVec_ne 1 6 (by norm_num)⟩ 0

/-- C3: the decision is true exactly when the fused score of the target
class strictly exceeds the threshold, and equality yields false. -/
theorem decideFused_strict (S : ClassVec) (target : Fin LABEL_COUNT) (threshold : ℚ) :
    (decideFused S target threshold = true ↔ S target > threshold) ∧
    (S target = threshold → decideFused S target threshold = false) := by
  constructor
  · unfold decideFused
    exact decide_eq_true_iff
  · intro h
    simp [decideFused, h]

/-- Witness for C3: a fused knock score exactly at the 0.25 threshold is not
detected. -/
theorem decideFused_strict_witness :
    decideFused (fun _ => 25/100) 1 KNOCK_THRESHOLD = false :=
  (decideFused_strict (fun _ => 25/100) 1 KNOCK_THRESHOLD).2 rfl

/-- C8: the fusion arithmetic is a pure function of the history, the
weights and the boosts: identical inputs give identical fused vectors. -/
theorem fuse_deterministic (h1 h2 : Fin FUSION_WINDOW → ClassVec)
    (w1 w2 : Fin FUSION_WINDOW → ℚ) (b1 b2 : Fin LABEL_COUNT → ℚ)
    (hh : h1 = h2) (hw : w1 = w2) (hb : b1 = b2) :
    fuseWith h1 w1 b1 = fuseWith h2 w2 b2 := by
  rw [hh, hw, hb]

/-- Witness for C8 at a concrete history and the configured weights and
boosts. -/
theorem fuse_deterministic_witness :
    fuseWith (fun _ => uVec 1) fusion_weights class_boost
      = fuseWith (fun _ => uVec 1) fusion_weights class_boost :=
  fuse_deterministic (fun _ => uVec 1) (fun _ => uVec 1) fusion_weights fusion_weights
    class_boost class_boost rfl rfl rfl

/-- After pushing a list of vectors onto any state whose cursor is in
range, the cursor is the push count modulo `FUSION_WINDOW` and the full
flag is latched exactly when the total push count has reached
`FUSION_WINDOW`. -/
lemma pushAll_cursor_full (vs : List ClassVec) :
    ∀ s : FusionState, s.fusion_index < FUSION_WINDOW →
      (pushAll s vs).fusion_index = (s.fusion_index + vs.length) % FUSION_WINDOW ∧
      (pushAll s vs).fusion_buffer_full
        = (s.fusion_buffer_full
            || decide (FUSION_WINDOW ≤ s.fusion_index + vs.length)) := by
  induction vs with
  | nil =>
    intro s h
    refine ⟨?_, ?_⟩
    · simp [pushAll, Nat.mod_eq_of_lt h]
    · simp only [pushAll, List.foldl_nil, List.length_nil, Nat.add_zero]
      rw [decide_eq_false (by omega : ¬ FUSION_WINDOW ≤ s.fusion_index)]
      simp
  | cons v rest ih =>
    intro s h
    have hstep : pushAll s (v :: rest) = pushAll (push s v) rest := by
      simp [pushAll]
    by_cases hc : s.fusion_index + 1 ≥ FUSION_WINDOW
    · have hs4 : s.fusion_index = 4 := by
        simp only [FUSION_WINDOW] at h hc
        omega
      have hpush : push s v
          = { classification_buffer := fun i =>
                if (i : ℕ) = s.fusion_index then v else s.classification_buffer i,
              fusion_index := 0, fusion_buffer_full := true } := by
        simp [push, hc]
      have h0 : (0 : ℕ) < FUSION_WINDOW := by norm_num
      obtain ⟨hidx, hfull⟩ := ih (push s v) (by rw [hpush]; exact h0)
      rw [hpush] at hidx hfull
      refine ⟨?_, ?_⟩
      · rw [hstep, hpush, hidx]
        simp only [List.length_cons, hs4, FUSION_WINDOW]
        omega
      · rw [hstep, hpush, hfull]
        have hle : FUSION_WINDOW ≤ s.fusion_index + (v :: rest).length := by
          simp only [List.length_cons, hs4, FUSION_WINDOW]
          omega
        rw [decide_eq_true hle]
        simp
    · have hpush : push s v
          = { classification_buffer := fun i =>
                if (i : ℕ) = s.fusion_index then v else s.classification_buffer i,
              fusion_index := s.fusion_index + 1,
              fusion_buffer_full := s.fusion_buffer_full } := by
        simp [push, hc]
      have hlt : s.fusion_index + 1 < FUSION_WINDOW := by omega
      obtain ⟨hidx, hfull⟩ := ih (push s v) (by rw [hpush]; exact hlt)
      rw [hpush] at hidx hfull
      have harith : s.fusion_index + 1 + rest.length
          = s.fusion_index + (v :: rest).length := by
        simp only [List.length_cons]
        omega
      refine ⟨?_, ?_⟩
      · rw [hstep, hpush, hidx, harith]
      · rw [hstep, hpush, hfull, harith]

/-- C2: the full flag is set exactly once `FUSION_WINDOW` pushes have
happened; before that the cycle produces no fused output, from then on
(and after any further pushes, permanently) every cycle produces the fused
vector together with the knock decision. -/
theorem warmup_gating (vs ws : List ClassVec) :
    ((pushAll initState vs).fusion_buffer_full = true ↔ FUSION_WINDOW ≤ vs.length) ∧
    (vs.length < FUSION_WINDOW → loopOutput (pushAll initState vs) = none) ∧
    (FUSION_WINDOW ≤ vs.length →
      loopOutput (pushAll initState vs)
        = some (fuse (pushAll initState vs).classification_buffer,
            knock_detected (fuse (pushAll initState vs).classification_buffer)) ∧
      (pushAll initState (vs ++ ws)).fusion_buffer_full = true) := by
  have hinit : initState.fusion_index < FUSION_WINDOW := by
    simp [initState, FUSION_WINDOW]
  obtain ⟨-, hfull⟩ := pushAll_cursor_full vs initState hinit
  have hfull' : (pushAll initState vs).fusion_buffer_full
      = decide (FUSION_WINDOW ≤ vs.length) := by
    simpa [initState] using hfull
  obtain ⟨-, hfull2⟩ := pushAll_cursor_full (vs ++ ws) initState hinit
  have hfull2' : (pushAll initState (vs ++ ws)).fusion_buffer_full
      = decide (FUSION_WINDOW ≤ vs.length + ws.length) := by
    simpa [initState] using hfull2
  refine ⟨?_, ?_, ?_⟩
  · rw [hfull']
    simp
  · intro hlt
    have : ¬ FUSION_WINDOW ≤ vs.length := by omega
    simp [loopOutput, hfull', this]
  · intro hge
    constructor
    · simp [loopOutput, hfull', hge]
    · rw [hfull2']
      have : FUSION_WINDOW ≤ vs.length + ws.length := by omega
      simp [this]

/-- Witness for C2 at five pushes followed by one more: the flag is set,
output is produced, and the flag survives a later push. -/
theorem warmup_gating_witness :
    loopOutput (pushAll initState [zeroVec, zeroVec, zeroVec, zeroVec, zeroVec])
      = some
          (fuse (pushAll initState
              [zeroVec, zeroVec, zeroVec, zeroVec, zeroVec]).classification_buffer,
            knock_detected
              (fuse (pushAll initState
                [zeroVec, zeroVec, zeroVec, zeroVec, zeroVec]).classification_buffer)) ∧
    (pushAll initState
        ([zeroVec, zeroVec, zeroVec, zeroVec, zeroVec] ++ [zeroVec])).fusion_buffer_full
      = true :=
  (warmup_gating [zeroVec, zeroVec, zeroVec, zeroVec, zeroVec] [zeroVec]).2.2
    (by norm_num)

/-- C7: when the recording step times out or the classifier fails, the
cycle performs no push and leaves the fusion state (buffer, cursor, flag)
exactly as it was; a successful cycle performs exactly the push. -/
theorem upstream_failure_no_push (s : FusionState) (res : Option ClassVec) :
    cycle false res s = s ∧
    cycle true none s = s ∧
    ∀ v : ClassVec, cycle true (some v) s = push s v :=
  ⟨rfl, rfl, fun _ => rfl⟩

/-- C9: a push writes the incoming vector into the slot at the current
cursor, leaves every other slot untouched, advances the cursor modulo
`FUSION_WINDOW`, and latches the full flag exactly on a wrap. -/
theorem push_frame (s : FusionState) (v : ClassVec)
    (h : s.fusion_index < FUSION_WINDOW) :
    (push s v).classification_buffer ⟨s.fusion_index, h⟩ = v ∧
    (∀ i : Fin FUSION_WINDOW, (i : ℕ) ≠ s.fusion_index →
        (push s v).classification_buffer i = s.classification_buffer i) ∧
    (push s v).fusion_index = (s.fusion_index + 1) % FUSION_WINDOW ∧
    (push s v).fusion_buffer_full
      = (s.fusion_buffer_full || decide (s.fusion_index + 1 = FUSION_WINDOW)) := by
  by_cases hc : s.fusion_index + 1 ≥ FUSION_WINDOW
  · have he : s.fusion_index + 1 = FUSION_WINDOW := by omega
    refine ⟨by simp [push, hc], fun i hi => by simp [push, hc, hi], ?_, ?_⟩
    · simp [push, hc, he]
    · simp [push, hc, he]
  · have hne : s.fusion_index + 1 ≠ FUSION_WINDOW := by omega
    refine ⟨by simp [push, hc], fun i hi => by simp [push, hc, hi], ?_, ?_⟩
    · simp [push, hc, Nat.mod_eq_of_lt (by omega : s.fusion_index + 1 < FUSION_WINDOW)]
    · simp [push, hc, hne]

/-- Witness for C9: the first push from the initial state writes slot 0. -/
theorem push_frame_witness :
    (push initState (uVec 1)).classification_buffer ⟨0, by norm_num⟩ = uVec 1 :=
  (push_frame initState (uVec 1) (by norm_num [initState])).1

/-- C10: if every stored score lies in [0, 1], then with the configured
weights (non-negative, summing to 1) every fused score lies between 0 and
the boost of its class; with boosts [1, 2, 1] the fused scores of classes
0 and 2 never exceed 1 and that of class 1 never exceeds 2. -/
theorem fused_score_bounds (buf : Fin FUSION_WINDOW → ClassVec)
    (h : ∀ i c, 0 ≤ buf i c ∧ buf i c ≤ 1) :
    (∀ c, 0 ≤ fuse buf c ∧ fuse buf c ≤ class_boost c) ∧
    fuse buf 0 ≤ 1 ∧ fuse buf 1 ≤ 2 ∧ fuse buf 2 ≤ 1 := by
  have hw : ∀ i : Fin FUSION_WINDOW, 0 ≤ fusion_weights i := by
    intro i
    fin_cases i <;> norm_num [fusion_weights]
  have hwsum : (∑ i : Fin FUSION_WINDOW, fusion_weights i) = 1 := by
    norm_num [Fin.sum_univ_five, fusion_weights]
  have hmain : ∀ c, 0 ≤ fuse buf c ∧ fuse buf c ≤ class_boost c := by
    intro c
    have hb : 0 ≤ class_boost c := by
      fin_cases c <;> norm_num [class_boost]
    have hsnn : 0 ≤ ∑ i : Fin FUSION_WINDOW, fusion_weights i * buf i c :=
      Finset.sum_nonneg fun i _ => mul_nonneg (hw i) (h i c).1
    have hsle : (∑ i : Fin FUSION_WINDOW, fusion_weights i * buf i c) ≤ 1 := by
      calc (∑ i : Fin FUSION_WINDOW, fusion_weights i * buf i c)
          ≤ ∑ i : Fin FUSION_WINDOW, fusion_weights i :=
            Finset.sum_le_sum fun i _ => by
              have := mul_le_mul_of_nonneg_left (h i c).2 (hw i)
              simpa using this
        _ = 1 := hwsum
    constructor
    · exact mul_nonneg hb hsnn
    · calc fuse buf c
          = class_boost c * ∑ i : Fin FUSION_WINDOW, fusion_weights i * buf i c := rfl
        _ ≤ class_boost c * 1 := mul_le_mul_of_nonneg_left hsle hb
        _ = class_boost c := mul_one _
  refine ⟨hmain, ?_, ?_, ?_⟩
  · have := (hmain 0).2
    simpa [class_boost] using this
  · have := (hmain 1).2
    simpa [class_boost] using this
  · have := (hmain 2).2
    simpa [class_boost] using this

/-- Witness for C10 at a history of constant vectors with score 0.1. -/
theorem fused_score_bounds_witness :
    0 ≤ fuse (fun _ => uVec 1) 1 ∧ fuse (fun _ => uVec 1) 1 ≤ 2 :=
  ⟨((fused_score_bounds (fun _ => uVec 1)
      (by intro i c; constructor <;> norm_num [uVec])).1 1).1,
   (fused_score_bounds (fun _ => uVec 1)
      (by intro i c; constructor <;> norm_num [uVec])).2.2.1⟩

/-- C6: with a strictly positive pre-boost weighted sum for class `c`,
strictly increasing the boost of `c` while fixing the history, the weights
and all other boosts strictly increases the fused score of `c` and leaves
every other class's fused score unchanged. -/
theorem boost_monotonicity (buf : Fin FUSION_WINDOW → ClassVec)
    (w : Fin FUSION_WINDOW → ℚ) (b b2 : Fin LABEL_COUNT → ℚ) (c : Fin LABEL_COUNT)
    (hpre : 0 < ∑ i : Fin FUSION_WINDOW, w i * buf i c)
    (hlt : b c < b2 c) (hother : ∀ d, d ≠ c → b2 d = b d) :
    fuseWith buf w b c < fuseWith buf w b2 c ∧
    ∀ d, d ≠ c → fuseWith buf w b2 d = fuseWith buf w b d := by
  constructor
  · unfold fuseWith
    exact mul_lt_mul_of_pos_right hlt hpre
  · intro d hd
    unfold fuseWith
    rw [hother d hd]

/-- Witness for C6: raising the knock boost from 2 to 3 over a history of
constant 0.1 scores strictly raises the fused knock score. -/
theorem boost_monotonicity_witness :
    fuseWith (fun _ => uVec 1) fusion_weights class_boost 1
      < fuseWith (fun _ => uVec 1) fusion_weights ![1, 3, 1] 1 :=
  (boost_monotonicity (fun _ => uVec 1) fusion_weights class_boost ![1, 3, 1] 1
    (by norm_num [Fin.sum_univ_five, fusion_weights, uVec])
    (by norm_num [class_boost])
    (by
      intro d hd
      fin_cases d
      · norm_num [class_boost]
      · simp at hd
      · norm_num [class_boost])).1

end KnockFusion
